import Mathlib

/-!
Shallow embedding of `src/Python/download_data/config_utils.py` from the
constitutional_change repository, together with theorems settling the
specification claims about `get_df`, `lemmatization` and `save_parquet`.

Python strings are modelled as `List Char`; file contents on disk as raw
byte lists (`List Nat`, each entry < 256).  The filesystem and the spaCy
model registry are explicit parameters, so the Python functions become
pure Lean functions returning `Except PyError _` where the Python code
can raise.
-/

deriving instance DecidableEq for Except

namespace ConstitutionalChange

/-! ## Python string primitives -/

/-- Python `s.split(sep)` for a one-character separator `sep`, as used in
`stem.split('_')` on line 104/106 of `config_utils.py`.  Like Python,
splitting the empty string yields `[""]`, and the result is never empty. -/
def pySplit (sep : Char) : List Char → List (List Char)
  | [] => [[]]
  | c :: cs =>
    let r := pySplit sep cs
    if c = sep then [] :: r
    else (c :: r.headD []) :: r.tail

/-- Python `sep.join(parts)` (line 105 uses `' '.join(country_parts)`). -/
def pyJoin (sep : List Char) : List (List Char) → List Char
  | [] => []
  | [s] => s
  | s :: rest => s ++ sep ++ pyJoin sep rest

/-- Python `s.lower()`, modelled as per-character lowercasing
(line 152 uses `token.lemma_.lower()`). -/
def pyLower (s : List Char) : List Char := s.map Char.toLower

/-! ## pathlib model

`get_df` and `save_parquet` rely on `pathlib.Path`: `.stem` and `.suffix`.
Modelled from CPython pathlib (POSIX flavour): the name is the last
`/`-separated component; `suffix` is `name[i:]` where `i` is the index of
the last dot, provided `0 < i < len(name) - 1`, else empty; `stem` is the
name with the suffix removed. -/

/-- Index of the last occurrence of `c`, if any. -/
def rfindChar (c : Char) : List Char → Option Nat
  | [] => none
  | x :: xs =>
    match rfindChar c xs with
    | some i => some (i + 1)
    | none => if x = c then some 0 else none

/-- `Path(p).name`: the final path component. -/
def pathName (p : List Char) : List Char := (pySplit '/' p).getLastD []

/-- `Path(p).stem`: the final component with its last extension removed
(line 103 of `config_utils.py`). -/
def pathStem (p : List Char) : List Char :=
  let name := pathName p
  match rfindChar '.' name with
  | some i => if 0 < i ∧ i + 1 < name.length then name.take i else name
  | none => name

/-- `Path(p).suffix`: the last extension of the final component, dot
included (line 172 of `config_utils.py`). -/
def pathSuffix (p : List Char) : List Char :=
  let name := pathName p
  match rfindChar '.' name with
  | some i => if 0 < i ∧ i + 1 < name.length then name.drop i else []
  | none => []

/-! ## UTF-8 decoding with `errors='ignore'`

Line 108 opens each file with `encoding='utf-8', errors='ignore'`: bytes
are decoded as UTF-8 and every byte of an invalid sequence is dropped
(never raising).  The decoder below follows the UTF-8 byte ranges
(RFC 3629: restricted first continuation bytes rule out overlong forms,
surrogates and code points above U+10FFFF); on an invalid byte it resumes
at the next byte, as CPython does for the `ignore` error handler. -/

/-- Is `b` a UTF-8 continuation byte (`0x80..0xBF`)? -/
def isCont (b : Nat) : Bool := 0x80 ≤ b && b ≤ 0xBF

/-- Valid range for the first continuation byte after a three-byte lead. -/
def cont1okE (b b1 : Nat) : Bool :=
  if b = 0xE0 then 0xA0 ≤ b1 && b1 ≤ 0xBF
  else if b = 0xED then 0x80 ≤ b1 && b1 ≤ 0x9F
  else isCont b1

/-- Valid range for the first continuation byte after a four-byte lead. -/
def cont1okF (b b1 : Nat) : Bool :=
  if b = 0xF0 then 0x90 ≤ b1 && b1 ≤ 0xBF
  else if b = 0xF4 then 0x80 ≤ b1 && b1 ≤ 0x8F
  else isCont b1

/-- Lossy UTF-8 decoding: the behaviour of reading a file opened with
`encoding='utf-8', errors='ignore'`.  Total: invalid bytes are skipped,
never an error. -/
def utf8DecodeLossy : List Nat → List Char
  | [] => []
  | b :: rest =>
    if b ≤ 0x7F then
      Char.ofNat b :: utf8DecodeLossy rest
    else if 0xC2 ≤ b && b ≤ 0xDF then
      match rest with
      | [] => []
      | b1 :: rest1 =>
        if isCont b1 then
          Char.ofNat ((b - 0xC0) * 0x40 + (b1 - 0x80)) :: utf8DecodeLossy rest1
        else utf8DecodeLossy (b1 :: rest1)
    else if 0xE0 ≤ b && b ≤ 0xEF then
      match rest with
      | [] => []
      | b1 :: rest1 =>
        if cont1okE b b1 then
          match rest1 with
          | [] => []
          | b2 :: rest2 =>
            if isCont b2 then
              Char.ofNat ((b - 0xE0) * 0x1000 + (b1 - 0x80) * 0x40 + (b2 - 0x80))
                :: utf8DecodeLossy rest2
            else utf8DecodeLossy (b2 :: rest2)
        else utf8DecodeLossy (b1 :: rest1)
    else if 0xF0 ≤ b && b ≤ 0xF4 then
      match rest with
      | [] => []
      | b1 :: rest1 =>
        if cont1okF b b1 then
          match rest1 with
          | [] => []
          | b2 :: rest2 =>
            if isCont b2 then
              match rest2 with
              | [] => []
              | b3 :: rest3 =>
                if isCont b3 then
                  Char.ofNat ((b - 0xF0) * 0x40000 + (b1 - 0x80) * 0x1000
                      + (b2 - 0x80) * 0x40 + (b3 - 0x80))
                    :: utf8DecodeLossy rest3
                else utf8DecodeLossy (b3 :: rest3)
            else utf8DecodeLossy (b2 :: rest2)
        else utf8DecodeLossy (b1 :: rest1)
    else utf8DecodeLossy rest

/-! ## Filesystem, errors, DataFrame -/

/-- A filesystem: maps a path to the raw bytes of the file, or `none`
when the file cannot be opened (Python then raises `FileNotFoundError`). -/
abbrev FS := List Char → Option (List Nat)

/-- The Python exceptions raised by the module under consideration. -/
inductive PyError
  | fileNotFoundError (path : List Char)
  | valueError (msg : List Char)
  | osError (msg : List Char)
deriving DecidableEq

/-- A pandas DataFrame built from a dict literal: an ordered association
of column names to column values (all strings here). -/
structure DataFrame where
  cols : List (List Char × List (List Char))
deriving DecidableEq

/-! ## `get_df` (lines 78-115 of `config_utils.py`) -/

/-- Line 104-105: `country_parts = stem.split('_')[:-1]`;
`' '.join(country_parts)`. -/
def stemCountry (stem : List Char) : List Char :=
  pyJoin [' '] ((pySplit '_' stem).dropLast)

/-- Line 106: `stem.split('_')[-1]` (`pySplit` never returns `[]`, so the
default of `getLastD` is never used). -/
def stemYear (stem : List Char) : List Char :=
  (pySplit '_' stem).getLastD []

/-- Reading every file of a list in order: `some` of the byte contents
when all opens succeed, `none` as soon as one fails. -/
def readAll (fs : FS) : List (List Char) → Option (List (List Nat))
  | [] => some []
  | p :: ps =>
    match fs p, readAll fs ps with
    | some b, some bs => some (b :: bs)
    | _, _ => none

/-- The loop body of `get_df` (lines 100-109): accumulates the three
column lists `countries`, `years`, `constitutions`.  In Python the
metadata appends precede the `open` inside one iteration, but an open
failure aborts the whole call, so only the final triple is observable. -/
def getDfLoop (fs : FS) :
    List (List Char) →
      Except PyError (List (List Char) × List (List Char) × List (List Char))
  | [] => .ok ([], [], [])
  | p :: ps =>
    let stem := pathStem p
    let country := stemCountry stem
    let year := stemYear stem
    match fs p with
    | none => .error (.fileNotFoundError p)
    | some bytes =>
      match getDfLoop fs ps with
      | .error e => .error e
      | .ok (cs, ys, ts) =>
        .ok (country :: cs, year :: ys, utf8DecodeLossy bytes :: ts)

/-- `get_df` (lines 78-115): build the DataFrame
`{'country': countries, 'year': years, 'constitution': constitutions}`. -/
def get_df (fs : FS) (text_files : List (List Char)) :
    Except PyError DataFrame :=
  match getDfLoop fs text_files with
  | .error e => .error e
  | .ok (cs, ys, ts) =>
    .ok ⟨[("country".data, cs), ("year".data, ys), ("constitution".data, ts)]⟩

/-! ## `lemmatization` (lines 117-154 of `config_utils.py`)

spaCy is an external collaborator: a loaded model is abstracted as a
function from a text to its token sequence (dependency parsing and NER
are disabled on line 144, which only affects speed, not tokenization or
lemma lookup), and `spacy.load` as a registry that may fail with
`OSError` for an unavailable model name. -/

/-- One spaCy token: its lemma (Python attribute `token.lemma_`) and its
punctuation flag (`token.is_punct`). -/
structure Token where
  lemma_ : List Char
  is_punct : Bool
deriving DecidableEq

/-- A loaded spaCy model: text to token sequence. -/
abbrev SpacyModel := List Char → List Token

/-- `spacy.load`: resolves a model name, `none` when the model is not
installed (Python raises `OSError`). -/
abbrev SpacyRegistry := List Char → Option SpacyModel

/-- The default model name of the `model` parameter (line 117). -/
def en_core_web_lg : List Char := "en_core_web_lg".data

/-- The error message raised on lines 146-149:
`spaCy model '{model}' not found. Install with:\npython -m spacy download {model}`. -/
def spacyErrMsg (model : List Char) : List Char :=
  "spaCy model \x27".data ++ model ++ "\x27 not found. Install with:\n".data
    ++ "python -m spacy download ".data ++ model

/-- `nlp.pipe(texts, batch_size=50)` (line 153): the texts are processed
in batches of `batch_size` and the resulting docs are yielded in input
order.  One batch is the first `batch_size` texts (at least one, so the
recursion terminates even for `batch_size = 0`). -/
def nlpPipe (nlp : SpacyModel) (batch_size : Nat) :
    List (List Char) → List (List Token)
  | [] => []
  | t :: ts =>
    ((t :: ts.take (batch_size - 1)).map nlp)
      ++ nlpPipe nlp batch_size (ts.drop (batch_size - 1))
termination_by l => l.length
decreasing_by simp [List.length_drop]; omega

/-- The per-document comprehension of line 152:
`[token.lemma_.lower() for token in doc if not token.is_punct]`
applied to `doc = nlp t`. -/
def docLemmas (nlp : SpacyModel) (t : List Char) : List (List Char) :=
  ((nlp t).filter fun tok => !tok.is_punct).map fun tok => pyLower tok.lemma_

/-- `lemmatization` (lines 117-154): load the model (raising `OSError`
with a remediation message when unavailable), then lemmatize every text,
dropping punctuation tokens and lowercasing each lemma. -/
def lemmatization (registry : SpacyRegistry) (texts : List (List Char))
    (model : List Char) : Except PyError (List (List (List Char))) :=
  match registry model with
  | none => .error (.osError (spacyErrMsg model))
  | some nlp =>
    .ok ((nlpPipe nlp 50 texts).map fun doc =>
      (doc.filter fun tok => !tok.is_punct).map fun tok => pyLower tok.lemma_)

/-! ## `save_parquet` (lines 156-176 of `config_utils.py`)

`df.to_parquet` is an external collaborator; its observable effect is
modelled as appending `(path, df)` to a write log. -/

/-- The log of files written by `to_parquet`. -/
structure ParquetStore where
  written : List (List Char × DataFrame)
deriving DecidableEq

/-- The `ValueError` message of line 173. -/
def saveErrMsg : List Char :=
  "Output path must end with .parquet extension".data

/-- `save_parquet` (lines 156-176): reject any path whose suffix is not
`.parquet` before writing; otherwise write the DataFrame. -/
def save_parquet (df : DataFrame) (path : List Char) (store : ParquetStore) :
    Except PyError ParquetStore :=
  if pathSuffix path ≠ ".parquet".data then
    .error (.valueError saveErrMsg)
  else
    .ok ⟨store.written ++ [(path, df)]⟩

/-! ## Concrete instances used by witnesses -/

/-- A demonstration tokenization: the doc for `"The Constitution."`,
with the final period flagged as punctuation. -/
def nlpDemo : SpacyModel := fun _ =>
  [⟨"The".data, false⟩, ⟨"Constitution".data, false⟩, ⟨".".data, true⟩]

/-- A tokenizer producing no tokens (the behaviour of a spaCy model on
the empty string). -/
def nlpEmpty : SpacyModel := fun _ => []

/-- A filesystem on which every path holds the single byte `H`. -/
def fsH : FS := fun _ => some [72]

/-- A duplicated file list: `get_df` performs no deduplication. -/
def dupFiles : List (List Char) :=
  ["Brazil_1988.txt".data, "Brazil_1988.txt".data]

/-- The table `get_df` builds from `dupFiles` over `fsH`. -/
def dupDf : DataFrame :=
  ⟨[("country".data, ["Brazil".data, "Brazil".data]),
    ("year".data, ["1988".data, "1988".data]),
    ("constitution".data, [['H'], ['H']])]⟩

/-- A filesystem whose single file content is not valid UTF-8: the lead
byte `0xFF` cannot appear in any UTF-8 sequence. -/
def fsBadBytes : FS := fun _ => some [255, 72, 105]

/-! ## Helper lemmas -/

/-- `pySplit` never returns the empty list (Python `split` always yields
at least one piece). -/
theorem pySplit_ne_nil (sep : Char) (s : List Char) : pySplit sep s ≠ [] := by
  cases s with
  | nil => simp [pySplit]
  | cons c cs =>
    simp only [pySplit]
    split <;> simp

/-- Splitting a string that does not contain the separator yields the
whole string as the only piece. -/
theorem pySplit_no_sep (sep : Char) (s : List Char) (h : sep ∉ s) :
    pySplit sep s = [s] := by
  induction s with
  | nil => rfl
  | cons c cs ih =>
    simp only [List.mem_cons, not_or] at h
    simp [pySplit, ih h.2, Ne.symm h.1]

/-- Batched processing is observably a plain map: batching does not
affect output content or order. -/
theorem nlpPipe_eq_map_aux (nlp : SpacyModel) (batch_size : Nat) :
    ∀ (n : Nat) (texts : List (List Char)), texts.length ≤ n →
      nlpPipe nlp batch_size texts = texts.map nlp := by
  intro n
  induction n with
  | zero =>
    intro texts h
    have : texts = [] := List.length_eq_zero.mp (Nat.le_zero.mp h)
    subst this
    simp [nlpPipe]
  | succ n ih =>
    intro texts h
    match texts with
    | [] => simp [nlpPipe]
    | t :: ts =>
      rw [nlpPipe, ih (ts.drop (batch_size - 1)) ?_]
      · rw [List.map_cons, List.cons_append, ← List.map_append,
          List.take_append_drop, ← List.map_cons]
      · simp only [List.length_drop]
        simp only [List.length_cons] at h
        omega

/-- `nlpPipe` equals `List.map` for every batch size. -/
theorem nlpPipe_eq_map (nlp : SpacyModel) (batch_size : Nat)
    (texts : List (List Char)) :
    nlpPipe nlp batch_size texts = texts.map nlp :=
  nlpPipe_eq_map_aux nlp batch_size texts.length texts (Nat.le_refl _)

/-- When the model resolves, `lemmatization` maps `docLemmas` over the
texts in order. -/
theorem lemmatization_ok (registry : SpacyRegistry) (nlp : SpacyModel)
    (texts : List (List Char)) (model : List Char)
    (h : registry model = some nlp) :
    lemmatization registry texts model = .ok (texts.map (docLemmas nlp)) := by
  simp only [lemmatization, h, nlpPipe_eq_map, List.map_map]
  rfl

/-- If every file opens, `readAll` succeeds. -/
theorem readAll_isSome (fs : FS) (files : List (List Char))
    (h : ∀ p ∈ files, fs p ≠ none) :
    ∃ bss, readAll fs files = some bss := by
  induction files with
  | nil => exact ⟨[], rfl⟩
  | cons p ps ih =>
    obtain ⟨bss, hbss⟩ := ih (fun q hq => h q (List.mem_cons_of_mem p hq))
    cases hfs : fs p with
    | none => exact absurd hfs (h p (List.mem_cons_self p ps))
    | some b => exact ⟨b :: bss, by simp [readAll, hfs, hbss]⟩

/-- If one file of the list does not open, `readAll` fails. -/
theorem readAll_none_of_missing (fs : FS) (files : List (List Char))
    (p : List Char) (hmem : p ∈ files) (hp : fs p = none) :
    readAll fs files = none := by
  induction files with
  | nil => cases hmem
  | cons q qs ih =>
    rcases List.mem_cons.mp hmem with h | h
    · subst h
      simp [readAll, hp]
    · cases hq : fs q <;> simp [readAll, hq, ih h]

/-- `readAll` preserves the number of files. -/
theorem readAll_length (fs : FS) (files : List (List Char))
    (bss : List (List Nat)) (h : readAll fs files = some bss) :
    bss.length = files.length := by
  induction files generalizing bss with
  | nil =>
    simp only [readAll, Option.some.injEq] at h
    subst h
    rfl
  | cons p ps ih =>
    cases hfs : fs p with
    | none => simp [readAll, hfs] at h
    | some b =>
      cases hra : readAll fs ps with
      | none => simp [readAll, hfs, hra] at h
      | some bs =>
        simp only [readAll, hfs, hra, Option.some.injEq] at h
        subst h
        simp [ih bs hra]

/-- When every file opens, the `get_df` loop returns the three columns
in input order: parsed countries, parsed years, decoded contents. -/
theorem getDfLoop_of_readAll (fs : FS) (files : List (List Char))
    (bss : List (List Nat)) (h : readAll fs files = some bss) :
    getDfLoop fs files =
      .ok (files.map (fun p => stemCountry (pathStem p)),
           files.map (fun p => stemYear (pathStem p)),
           bss.map utf8DecodeLossy) := by
  induction files generalizing bss with
  | nil =>
    simp only [readAll, Option.some.injEq] at h
    subst h
    rfl
  | cons p ps ih =>
    cases hfs : fs p with
    | none => simp [readAll, hfs] at h
    | some b =>
      cases hra : readAll fs ps with
      | none => simp [readAll, hfs, hra] at h
      | some bs =>
        simp only [readAll, hfs, hra, Option.some.injEq] at h
        subst h
        simp [getDfLoop, hfs, ih bs hra]

/-- When some file fails to open, the `get_df` loop raises. -/
theorem getDfLoop_of_readAll_none (fs : FS) (files : List (List Char))
    (h : readAll fs files = none) :
    ∃ e, getDfLoop fs files = .error e := by
  induction files with
  | nil => simp [readAll] at h
  | cons p ps ih =>
    cases hfs : fs p with
    | none => exact ⟨.fileNotFoundError p, by simp [getDfLoop, hfs]⟩
    | some b =>
      have hra : readAll fs ps = none := by
        cases hra : readAll fs ps with
        | none => rfl
        | some bs => simp [readAll, hfs, hra] at h
      obtain ⟨e, he⟩ := ih hra
      exact ⟨e, by simp [getDfLoop, hfs, he]⟩

/-! ## Claim theorems -/

/-- C1: for every input path whose file opens, `get_df` parses the base
name (extension stripped) by splitting on underscore: the record year is
the last segment taken verbatim, the country is the remaining segments
joined with a single space; when the base name contains no underscore
the country is empty and the year is the whole segment, and no error is
raised. -/
theorem get_df_parses_filename (fs : FS) (p : List Char) (bs : List Nat)
    (h : fs p = some bs) :
    get_df fs [p] =
      .ok ⟨[("country".data,
             [pyJoin [' '] ((pySplit '_' (pathStem p)).dropLast)]),
            ("year".data, [(pySplit '_' (pathStem p)).getLastD []]),
            ("constitution".data, [utf8DecodeLossy bs])]⟩ ∧
    ('_' ∉ pathStem p →
      stemCountry (pathStem p) = [] ∧ stemYear (pathStem p) = pathStem p) := by
  constructor
  · have hra : readAll fs [p] = some [bs] := by simp [readAll, h]
    simp [get_df, getDfLoop_of_readAll fs [p] [bs] hra, stemCountry, stemYear]
  · intro hu
    rw [stemCountry, stemYear, pySplit_no_sep '_' (pathStem p) hu]
    exact ⟨rfl, rfl⟩

/-- C1 witness: a file name with no underscore yields an empty country
and the whole stem as year, without an error. -/
theorem get_df_parses_filename_witness :
    get_df fsH ["Nowhereland.txt".data] =
      .ok ⟨[("country".data, [[]]),
            ("year".data, ["Nowhereland".data]),
            ("constitution".data, [['H']])]⟩ :=
  (get_df_parses_filename fsH "Nowhereland.txt".data [72] rfl).1.trans
    (by decide)

/-- C2: when the model resolves, `lemmatization` emits, per document,
exactly the lemmas of the non-punctuation tokens produced by the model,
each lowercased, in the original tokenization order; every token
classified as punctuation is excluded. -/
theorem lemmatization_punct_lowercase (registry : SpacyRegistry)
    (nlp : SpacyModel) (texts : List (List Char)) (model : List Char)
    (h : registry model = some nlp) :
    lemmatization registry texts model =
      .ok (texts.map fun t =>
        ((nlp t).filter fun tok => !tok.is_punct).map fun tok =>
          pyLower tok.lemma_) :=
  lemmatization_ok registry nlp texts model h

/-- C2 witness: `"The Constitution."` tokenized into three tokens gives
the lowercased lemmas with the period excluded. -/
theorem lemmatization_punct_lowercase_witness :
    lemmatization (fun _ => some nlpDemo) ["The Constitution.".data]
        en_core_web_lg =
      .ok [["the".data, "constitution".data]] :=
  (lemmatization_punct_lowercase (fun _ => some nlpDemo) nlpDemo
    ["The Constitution.".data] en_core_web_lg rfl).trans (by decide)

/-- C3: whenever `get_df` succeeds, every column of the returned table
has exactly `files.length` entries, and the columns are in-order maps
over the input list, so row `i` is derived from `files[i]`: no
reordering, no deduplication, no skipped rows. -/
theorem get_df_row_alignment (fs : FS) (files : List (List Char))
    (df : DataFrame) (h : get_df fs files = .ok df) :
    (∀ c ∈ df.cols, c.2.length = files.length) ∧
    ∃ bss : List (List Nat), readAll fs files = some bss ∧
      df = ⟨[("country".data, files.map fun p => stemCountry (pathStem p)),
             ("year".data, files.map fun p => stemYear (pathStem p)),
             ("constitution".data, bss.map utf8DecodeLossy)]⟩ := by
  cases hra : readAll fs files with
  | none =>
    obtain ⟨e, he⟩ := getDfLoop_of_readAll_none fs files hra
    simp [get_df, he] at h
  | some bss =>
    have hdf := getDfLoop_of_readAll fs files bss hra
    simp only [get_df, hdf, Except.ok.injEq] at h
    subst h
    refine ⟨?_, bss, rfl, rfl⟩
    intro c hc
    have hlen := readAll_length fs files bss hra
    simp only [List.mem_cons, List.not_mem_nil, or_false] at hc
    rcases hc with h1 | h1 | h1 <;> subst h1 <;> simp [hlen]

/-- C3 witness: a duplicated input list yields a two-row table with the
duplicate preserved in order. -/
theorem get_df_row_alignment_witness :
    (∀ c ∈ dupDf.cols, c.2.length = dupFiles.length) ∧
    ∃ bss : List (List Nat), readAll fsH dupFiles = some bss ∧
      dupDf = ⟨[("country".data,
                 dupFiles.map fun p => stemCountry (pathStem p)),
                ("year".data, dupFiles.map fun p => stemYear (pathStem p)),
                ("constitution".data, bss.map utf8DecodeLossy)]⟩ :=
  get_df_row_alignment fsH dupFiles dupDf (by decide)

/-- C4: when the model resolves, the output has exactly one entry per
input text and is the in-order map of the per-document computation over
the texts; an empty input string on which the model produces no tokens
yields an empty token list as its entry, not an omitted entry. -/
theorem lemmatization_length_preserved (registry : SpacyRegistry)
    (nlp : SpacyModel) (texts : List (List Char)) (model : List Char)
    (h : registry model = some nlp) :
    (∃ out, lemmatization registry texts model = .ok out ∧
       out.length = texts.length ∧ out = texts.map (docLemmas nlp)) ∧
    (nlp [] = [] → lemmatization registry [[]] model = .ok [[]]) := by
  constructor
  · exact ⟨texts.map (docLemmas nlp),
      lemmatization_ok registry nlp texts model h, List.length_map _ _, rfl⟩
  · intro hnlp
    rw [lemmatization_ok registry nlp [[]] model h]
    simp [docLemmas, hnlp]

/-- C4 witness: a one-text input gives a one-entry output, and the empty
string input gives `[[]]`. -/
theorem lemmatization_length_preserved_witness :
    (∃ out, lemmatization (fun _ => some nlpEmpty) ["Hi".data]
        en_core_web_lg = .ok out ∧
       out.length = ["Hi".data].length ∧
       out = ["Hi".data].map (docLemmas nlpEmpty)) ∧
    lemmatization (fun _ => some nlpEmpty) [[]] en_core_web_lg =
      .ok [[]] := by
  have h := lemmatization_length_preserved (fun _ => some nlpEmpty) nlpEmpty
    ["Hi".data] en_core_web_lg rfl
  exact ⟨h.1, h.2 rfl⟩

/-- C5 counterexample: on a concrete input `get_df` succeeds, and the
column names of the returned table are not `country, year, text`: the
third column is named `constitution`. -/
theorem get_df_text_column_cx :
    get_df fsH ["Brazil_1988.txt".data] =
      .ok ⟨[("country".data, ["Brazil".data]),
            ("year".data, ["1988".data]),
            ("constitution".data, [['H']])]⟩ ∧
    (⟨[("country".data, ["Brazil".data]),
       ("year".data, ["1988".data]),
       ("constitution".data, [['H']])]⟩ : DataFrame).cols.map Prod.fst ≠
      ["country".data, "year".data, "text".data] :=
  ⟨by decide, by decide⟩

/-- C5 (amended): the table returned by `get_df` exposes exactly three
named columns, whose names are `country`, `year` and `constitution` (the
text content is held in the column named `constitution`, not `text`). -/
theorem get_df_column_names (fs : FS) (files : List (List Char))
    (df : DataFrame) (h : get_df fs files = .ok df) :
    df.cols.map Prod.fst =
      ["country".data, "year".data, "constitution".data] ∧
    df.cols.length = 3 := by
  cases hra : readAll fs files with
  | none =>
    obtain ⟨e, he⟩ := getDfLoop_of_readAll_none fs files hra
    simp [get_df, he] at h
  | some bss =>
    have hdf := getDfLoop_of_readAll fs files bss hra
    simp only [get_df, hdf, Except.ok.injEq] at h
    subst h
    exact ⟨rfl, rfl⟩

/-- C5 witness: the three column names on a concrete call. -/
theorem get_df_column_names_witness :
    dupDf.cols.map Prod.fst =
      ["country".data, "year".data, "constitution".data] ∧
    dupDf.cols.length = 3 :=
  get_df_column_names fsH dupFiles dupDf (by decide)

/-- C6: when the requested model identifier does not resolve,
`lemmatization` fails with an `OSError` whose message names the model
and the install command; the failure is uniform in the input texts, so
it happens before any document is processed and before any batching, and
no (partial) output is ever returned. -/
theorem lemmatization_model_missing (registry : SpacyRegistry)
    (texts : List (List Char)) (model : List Char)
    (h : registry model = none) :
    lemmatization registry texts model =
      .error (.osError (spacyErrMsg model)) ∧
    (∃ u v, spacyErrMsg model = u ++ model ++ v) ∧
    (∃ u, spacyErrMsg model =
      u ++ ("python -m spacy download ".data ++ model)) ∧
    ∀ out, lemmatization registry texts model ≠ .ok out := by
  refine ⟨by simp [lemmatization, h], ?_, ?_, ?_⟩
  · refine ⟨"spaCy model \x27".data,
      "\x27 not found. Install with:\n".data
        ++ "python -m spacy download ".data ++ model, ?_⟩
    simp [spacyErrMsg, List.append_assoc]
  · refine ⟨"spaCy model \x27".data ++ model
      ++ "\x27 not found. Install with:\n".data, ?_⟩
    simp [spacyErrMsg, List.append_assoc]
  · intro out hout
    simp [lemmatization, h] at hout

/-- C6 witness: an unresolvable registry fails on a nonempty input with
the descriptive error and returns no output. -/
theorem lemmatization_model_missing_witness :
    lemmatization (fun _ => none) ["Hi".data] en_core_web_lg =
      .error (.osError (spacyErrMsg en_core_web_lg)) ∧
    (∃ u v, spacyErrMsg en_core_web_lg = u ++ en_core_web_lg ++ v) ∧
    (∃ u, spacyErrMsg en_core_web_lg =
      u ++ ("python -m spacy download ".data ++ en_core_web_lg)) ∧
    ∀ out, lemmatization (fun _ => none) ["Hi".data] en_core_web_lg ≠
      .ok out :=
  lemmatization_model_missing (fun _ => none) ["Hi".data] en_core_web_lg rfl

/-- C7: if any single file of the input list fails to open, the whole
`get_df` call fails with an error, and no table — in particular no short
table — is returned. -/
theorem get_df_fails_on_missing_file (fs : FS) (files : List (List Char))
    (p : List Char) (hmem : p ∈ files) (hp : fs p = none) :
    (∃ e, get_df fs files = .error e) ∧
    ∀ df, get_df fs files ≠ .ok df := by
  have hra := readAll_none_of_missing fs files p hmem hp
  obtain ⟨e, he⟩ := getDfLoop_of_readAll_none fs files hra
  refine ⟨⟨e, by simp [get_df, he]⟩, ?_⟩
  intro df hdf
  simp [get_df, he] at hdf

/-- C7 witness: one present file and one missing file make the whole
call fail. -/
theorem get_df_fails_on_missing_file_witness :
    (∃ e, get_df (fun p => if p = "a.txt".data then some [72] else none)
        ["a.txt".data, "b.txt".data] = .error e) ∧
    ∀ df, get_df (fun p => if p = "a.txt".data then some [72] else none)
        ["a.txt".data, "b.txt".data] ≠ .ok df :=
  get_df_fails_on_missing_file
    (fun p => if p = "a.txt".data then some [72] else none)
    ["a.txt".data, "b.txt".data] "b.txt".data (by decide) (by decide)

/-- C8: `save_parquet` raises a `ValueError` for every output path whose
suffix is not `.parquet`, and returns no updated store, so the rejection
happens with no write side effect. -/
theorem save_parquet_rejects_bad_extension (df : DataFrame)
    (path : List Char) (store : ParquetStore)
    (h : pathSuffix path ≠ ".parquet".data) :
    save_parquet df path store = .error (.valueError saveErrMsg) ∧
    ∀ store2, save_parquet df path store ≠ .ok store2 := by
  constructor
  · simp [save_parquet, h]
  · intro s2 hs2
    simp [save_parquet, h] at hs2

/-- C8 witness: `save(table, "x.csv")` fails and writes nothing. -/
theorem save_parquet_rejects_bad_extension_witness :
    save_parquet dupDf "x.csv".data ⟨[]⟩ =
      .error (.valueError saveErrMsg) ∧
    ∀ store2, save_parquet dupDf "x.csv".data ⟨[]⟩ ≠ .ok store2 :=
  save_parquet_rejects_bad_extension dupDf "x.csv".data ⟨[]⟩ (by decide)

/-- C9: file content is decoded with a lossy policy: `get_df` succeeds
whenever every file opens, regardless of the byte content (undecodable
content never makes the read raise), and an undecodable byte such as
`0xFF` is dropped by the decoder rather than causing an error. -/
theorem get_df_lossy_decode_total (fs : FS) (files : List (List Char))
    (h : ∀ p ∈ files, fs p ≠ none) :
    (∃ df, get_df fs files = .ok df) ∧
    ∀ bs : List Nat, utf8DecodeLossy (255 :: bs) = utf8DecodeLossy bs := by
  constructor
  · obtain ⟨bss, hra⟩ := readAll_isSome fs files h
    exact ⟨⟨[("country".data, files.map fun p => stemCountry (pathStem p)),
             ("year".data, files.map fun p => stemYear (pathStem p)),
             ("constitution".data, bss.map utf8DecodeLossy)]⟩,
      by simp [get_df, getDfLoop_of_readAll fs files bss hra]⟩
  · intro bs
    rw [utf8DecodeLossy.eq_def]
    norm_num

/-- C9 witness: a file whose bytes are not valid UTF-8 (lead byte
`0xFF`) is still read without error. -/
theorem get_df_lossy_decode_total_witness :
    (∃ df, get_df fsBadBytes ["f.txt".data] = .ok df) ∧
    ∀ bs : List Nat, utf8DecodeLossy (255 :: bs) = utf8DecodeLossy bs :=
  get_df_lossy_decode_total fsBadBytes ["f.txt".data] (by decide)

/-- C10: filename parsing strips only the final extension (it uses the
stem), so for the multi-dot filename `Brazil_1988.tar.gz` the parsed
base name is `Brazil_1988.tar` and the extracted year is `1988.tar`,
not `1988`. -/
theorem get_df_multidot_stem :
    pathStem "Brazil_1988.tar.gz".data = "Brazil_1988.tar".data ∧
    stemYear (pathStem "Brazil_1988.tar.gz".data) = "1988.tar".data ∧
    stemYear (pathStem "Brazil_1988.tar.gz".data) ≠ "1988".data ∧
    get_df fsH ["Brazil_1988.tar.gz".data] =
      .ok ⟨[("country".data, ["Brazil".data]),
            ("year".data, ["1988.tar".data]),
            ("constitution".data, [['H']])]⟩ :=
  ⟨by decide, by decide, by decide, by decide⟩

end ConstitutionalChange
